import Mathlib

/-!
# Verification of the TemperatureLogging measurement ingestion and query layer

This file embeds `temperature_logging/fetch_data.py` (class `MeasurementFileReader`)
as executable Lean definitions and proves/refutes the specification's claims about it.

Modelling conventions:

* Timestamps are `Nat` (a naive datetime is a point on a totally ordered axis; the
  day-first parsing performed by `pd.read_csv` is abstracted away: a CSV source is
  modelled as already parsed rows, or as a parse failure).
* A parsed CSV row keeps only its timestamp (the column made the index by
  `set_index`) and a single numeric payload `val` standing for the remaining
  payload columns, which no operation of the class ever consults.
* Python exceptions are modelled by the `Err` type and `Except`; an attribute
  assignment `self.x = ...` that is skipped because an earlier expression raised
  is modelled by returning the unchanged state alongside the error.
* The filesystem seen by the reader (`data_folder_path`, its `*.csv` files and
  their contents) is a value of type `FS`. `pathlib.Path.glob` on a path that is
  not an existing directory returns an *empty* iterator (its `_Selector.select_from`
  starts with `if not is_dir(parent_path): return iter([])`), which `glob` models.
* `pd.concat([])` raises `ValueError` ("No objects to concatenate"): `Err.concatEmpty`.
* `DataFrame.sort_index()` is called with its default `kind='quicksort'`; pandas
  documents only `mergesort`/`stable` as stable kinds, so the code's contract is
  exactly: the result is a permutation of the rows, non-decreasing in the index,
  with the relative order of equal keys unspecified.  The sort is therefore
  modelled as a *parameter* `sortFn` constrained by `SortSpec` (sorted permutation);
  `sortIndexImpl` is one concrete function satisfying the contract, used to run
  the model on concrete inputs.
* `.loc[start:end]` on the monotonic `DatetimeIndex` produced by `batch_read` is
  label-based and inclusive at both ends: pandas computes the slice with
  `searchsorted(start, 'left')` and `searchsorted(end, 'right')`, which on a
  non-decreasing list is `dropWhile (ts < start)` followed by `takeWhile (ts ≤ end)`.
-/

namespace TemperatureLogging

/-- A row of the merged measurement table: the datetime index value, the numeric
payload, and the `location` column added by `MeasurementFileReader.read`. -/
structure Rec where
  ts : Nat
  val : Int
  loc : String
deriving DecidableEq, Repr

/-- The Python exceptions the code can raise.  The source defines no error types
of its own; these are the concrete exceptions raised by the libraries it calls. -/
inductive Err where
  /-- `FileNotFoundError` from `pd.read_csv` on a missing file. -/
  | fileNotFound
  /-- a pandas parsing/coercion failure inside `pd.read_csv`. -/
  | parseError
  /-- `ValueError` ("No objects to concatenate") from `pd.concat([])`. -/
  | concatEmpty
  /-- `AttributeError`/`TypeError` from using `None` where a DataFrame is expected. -/
  | attrNone
  /-- `IndexError` from `index[0]` on an empty index. -/
  | indexError
deriving DecidableEq, Repr

/-- The filesystem as seen through `self.data_folder_path`: whether that path is
an existing directory, the stems of its `*.csv` files in enumeration order, and
the outcome of `pd.read_csv` on `<stem>.csv` (parsed `(timestamp, value)` rows,
or the exception it raises). -/
structure FS where
  isDir : Bool
  csvStems : List String
  readFile : String → Except Err (List (Nat × Int))

/-- `[f.stem for f in self.data_folder_path.glob('*.csv')]`.  `pathlib` yields an
empty iterator when the path is not an existing directory (no exception). -/
def glob (fs : FS) : List String :=
  if fs.isDir then fs.csvStems else []

/-- The mutable attributes of a `MeasurementFileReader` instance
(`self.measurement_data`, `self.locations`); both start as `None`. -/
structure Reader where
  measurement_data : Option (List Rec)
  locations : Option (List String)
deriving DecidableEq, Repr

/-- A freshly constructed reader (`__init__`). -/
def Reader.init : Reader :=
  { measurement_data := none, locations := none }

/-- Python truthiness of the `location` argument of `read`:
`None` and `''` are falsy. -/
def truthyStr : Option String → Bool
  | none => false
  | some s => !s.isEmpty

/-- The located dataframe built by `read` from the parsed rows: the
`'location'` column is the `location` argument when truthy, else `file_name`. -/
def locate (rows : List (Nat × Int)) (file_name : String) (location : Option String) :
    List Rec :=
  if truthyStr location then
    rows.map (fun p => { ts := p.1, val := p.2, loc := location.getD "" })
  else
    rows.map (fun p => { ts := p.1, val := p.2, loc := file_name })

/-- `MeasurementFileReader.read`.  On success `self.measurement_data` is set to
the single-file dataframe, which is also returned; if `pd.read_csv` raises, the
assignment never happens and the state is unchanged. -/
def read (fs : FS) (st : Reader) (file_name : String) (location : Option String) :
    Reader × Except Err (List Rec) :=
  match fs.readFile file_name with
  | .error e => (st, .error e)
  | .ok rows =>
    let df := locate rows file_name location
    ({ st with measurement_data := some df }, .ok df)

/-- The list comprehension `[self.read(fn, loc) for fn, loc in ...]`: the reads
happen sequentially, each mutating the state; the first exception aborts the
comprehension, leaving the state as the last successful `read` left it. -/
def readAll (fs : FS) (st : Reader) :
    List (String × Option String) → Reader × Except Err (List (List Rec))
  | [] => (st, .ok [])
  | p :: ps =>
    match read fs st p.1 p.2 with
    | (st1, .error e) => (st1, .error e)
    | (st1, .ok df) =>
      match readAll fs st1 ps with
      | (st2, .error e) => (st2, .error e)
      | (st2, .ok dfs) => (st2, .ok (df :: dfs))

/-- `self.measurement_data = pd.concat(df_lst).sort_index()` followed by
`return self.measurement_data`.  `pd.concat` of an empty list raises
`ValueError` before the assignment; otherwise the concatenation is flattening
in load order and the sort is the supplied `sortFn`. -/
def concatSort (sortFn : List Rec → List Rec) (st : Reader) (dfs : List (List Rec)) :
    Reader × Except Err (List Rec) :=
  if dfs.isEmpty then (st, .error .concatEmpty)
  else
    let df := sortFn dfs.flatten
    ({ st with measurement_data := some df }, .ok df)

/-- The `if locations:` branch of `batch_read`: which `(file_name, location)`
pairs are read (Python `zip` truncates to the shorter list) and which list is
assigned to `self.locations` afterwards.  A `None` or empty `locations` is
falsy: every file is read with `location=None` and `self.locations` gets the
file names. -/
def resolvePairs (fns : List String) (locations : Option (List String)) :
    List (String × Option String) × List String :=
  match locations with
  | some locs =>
    if locs.isEmpty then (fns.map (fun fn => (fn, none)), fns)
    else (fns.zip (locs.map some), locs)
  | none => (fns.map (fun fn => (fn, none)), fns)

/-- The tail of `batch_read` once the pairs are fixed: run the reads, then
assign `self.locations`, then concatenate and sort.  Note the Python statement
order: `self.locations` is assigned *before* `pd.concat` runs, so a concat
failure still leaves the new location list behind. -/
def batchWithPairs (sortFn : List Rec → List Rec) (fs : FS) (st : Reader)
    (pairs : List (String × Option String)) (locsRecord : List String) :
    Reader × Except Err (List Rec) :=
  match readAll fs st pairs with
  | (st1, .error e) => (st1, .error e)
  | (st1, .ok dfs) => concatSort sortFn { st1 with locations := some locsRecord } dfs

/-- `MeasurementFileReader.batch_read`.  `file_names=None` defaults to the
directory glob. -/
def batch_read (sortFn : List Rec → List Rec) (fs : FS) (st : Reader)
    (file_names : Option (List String)) (locations : Option (List String)) :
    Reader × Except Err (List Rec) :=
  let fns := file_names.getD (glob fs)
  let pr := resolvePairs fns locations
  batchWithPairs sortFn fs st pr.1 pr.2

/-- `MeasurementFileReader.get_datetime_limits`: `self.measurement_data.index[0]`
and `index[-1]`.  On a never-loaded reader `self.measurement_data` is `None`
(`AttributeError`); on an empty table `index[0]` raises `IndexError`. -/
def get_datetime_limits (st : Reader) : Reader × Except Err (Nat × Nat) :=
  match st.measurement_data with
  | none => (st, .error .attrNone)
  | some [] => (st, .error .indexError)
  | some (r :: rs) => (st, .ok (r.ts, (rs.getLastD r).ts))

/-- `self.measurement_data.loc[start:end]` on a table whose index is
non-decreasing: label-based inclusive slicing, i.e. drop the rows strictly
before `a`, then take rows while the index is at most `b`. -/
def locSlice (a b : Nat) (l : List Rec) : List Rec :=
  (l.dropWhile (fun r => r.ts < a)).takeWhile (fun r => r.ts ≤ b)

/-- The `if locations:` filter of `get_measurements`:
`df[df.location.isin(locations)]` keeps rows in order; a falsy (`None`/empty)
`locations` skips the filter; filtering a `None` frame raises. -/
def applyLocFilter (locs : Option (List String)) (df : Option (List Rec)) :
    Except Err (Option (List Rec)) :=
  match locs with
  | some ls =>
    if ls.isEmpty then .ok df
    else
      match df with
      | none => .error .attrNone
      | some l => .ok (some (l.filter (fun r => ls.contains r.loc)))
  | none => .ok df

/-- `MeasurementFileReader.get_measurements`.  The date filter runs only when
*both* bounds are truthy (`if start and end:`; datetime objects are always
truthy, `None` is falsy); the result can be the unfiltered `None` table. -/
def get_measurements (st : Reader) (start stop : Option Nat)
    (locs : Option (List String)) : Reader × Except Err (Option (List Rec)) :=
  match start, stop with
  | some a, some b =>
    match st.measurement_data with
    | none => (st, .error .attrNone)
    | some l =>
      match applyLocFilter locs (some (locSlice a b l)) with
      | .error e => (st, .error e)
      | .ok df => (st, .ok df)
  | _, _ =>
    match applyLocFilter locs st.measurement_data with
    | .error e => (st, .error e)
    | .ok df => (st, .ok df)

/-- Reading the `locations` attribute (the spec's `get_locations()`). -/
def get_locations (st : Reader) : Option (List String) :=
  st.locations

/-- Row comparison by the datetime index. -/
def tsLE (a b : Rec) : Prop :=
  a.ts ≤ b.ts

@[simp]
theorem tsLE_def (a b : Rec) : tsLE a b = (a.ts ≤ b.ts) :=
  rfl

instance : DecidableRel tsLE :=
  fun a b => Nat.decLe a.ts b.ts

instance : IsTotal Rec tsLE :=
  ⟨fun a b => Nat.le_total a.ts b.ts⟩

instance : IsTrans Rec tsLE :=
  ⟨fun _ _ _ hab hbc => Nat.le_trans hab hbc⟩

/-- The measurement table is non-decreasing in timestamp. -/
def SortedByTs (l : List Rec) : Prop :=
  l.Pairwise tsLE

instance (l : List Rec) : Decidable (SortedByTs l) :=
  inferInstanceAs (Decidable (l.Pairwise tsLE))

/-- The documented contract of `DataFrame.sort_index()` with the default
`kind='quicksort'`: the output is a permutation of the input rows, sorted by
the index; nothing more (in particular, no stability). -/
def SortSpec (f : List Rec → List Rec) : Prop :=
  ∀ l, (f l).Perm l ∧ SortedByTs (f l)

/-- One concrete sort satisfying `SortSpec`, used to evaluate the model. -/
def sortIndexImpl (l : List Rec) : List Rec :=
  l.insertionSort tsLE

/-- Another sort satisfying `SortSpec` (it sorts the reversed input with a
stable sort, so equal timestamps come out in reversed input order). -/
def badSort (l : List Rec) : List Rec :=
  sortIndexImpl l.reverse

theorem sortSpec_sortIndexImpl : SortSpec sortIndexImpl :=
  fun l => ⟨List.perm_insertionSort tsLE l, List.sorted_insertionSort tsLE l⟩

theorem sortSpec_badSort : SortSpec badSort := by
  intro l
  obtain ⟨hp, hs⟩ := sortSpec_sortIndexImpl l.reverse
  exact ⟨hp.trans (List.reverse_perm l), hs⟩

/-! ## Helper lemmas about the embedded operations -/

theorem locate_length (rows : List (Nat × Int)) (fn : String) (loc : Option String) :
    (locate rows fn loc).length = rows.length := by
  unfold locate
  split <;> simp

theorem concatSort_ok {sortFn : List Rec → List Rec} {st : Reader}
    {dfs : List (List Rec)} {st' : Reader} {df : List Rec}
    (h : concatSort sortFn st dfs = (st', .ok df)) :
    dfs ≠ [] ∧ df = sortFn dfs.flatten ∧
      st' = { st with measurement_data := some df } := by
  cases dfs with
  | nil => simp [concatSort] at h
  | cons d ds =>
    simp only [concatSort, List.isEmpty_cons, Bool.false_eq_true, if_false] at h
    injection h with h1 h2
    injection h2 with h2
    subst h2
    exact ⟨List.cons_ne_nil d ds, rfl, h1.symm⟩

theorem batchWithPairs_ok {sortFn : List Rec → List Rec} {fs : FS} {st : Reader}
    {pairs : List (String × Option String)} {lr : List String}
    {st' : Reader} {df : List Rec}
    (h : batchWithPairs sortFn fs st pairs lr = (st', .ok df)) :
    ∃ st1 dfs, readAll fs st pairs = (st1, .ok dfs) ∧ dfs ≠ [] ∧
      df = sortFn dfs.flatten ∧
      st' = { st1 with measurement_data := some df, locations := some lr } := by
  unfold batchWithPairs at h
  rcases hra : readAll fs st pairs with ⟨st1, res⟩
  rw [hra] at h
  cases res with
  | error e => simp at h
  | ok dfs =>
    obtain ⟨hne, hdf, hst⟩ := concatSort_ok h
    exact ⟨st1, dfs, rfl, hne, hdf, by rw [hst]⟩

theorem readAll_error_state (fs : FS) :
    ∀ (pairs : List (String × Option String)) (st st' : Reader) (e : Err),
    readAll fs st pairs = (st', .error e) →
    st'.locations = st.locations ∧
    (st'.measurement_data = st.measurement_data ∨
      ∃ p ∈ pairs, ∃ rows, fs.readFile p.1 = .ok rows ∧
        st'.measurement_data = some (locate rows p.1 p.2)) := by
  intro pairs
  induction pairs with
  | nil =>
    intro st st' e h
    simp [readAll] at h
  | cons p ps ih =>
    intro st st' e h
    rw [readAll] at h
    cases hr : fs.readFile p.1 with
    | error e1 =>
      simp only [read, hr] at h
      obtain ⟨h1, -⟩ := Prod.mk.injEq .. ▸ h
      subst h1
      exact ⟨rfl, Or.inl rfl⟩
    | ok rows =>
      simp only [read, hr] at h
      rcases hra : readAll fs { st with measurement_data := some (locate rows p.1 p.2) } ps
        with ⟨st2, res⟩
      rw [hra] at h
      cases res with
      | ok dfs => simp at h
      | error e2 =>
        obtain ⟨h1, -⟩ := Prod.mk.injEq .. ▸ h
        subst h1
        obtain ⟨hl, hm⟩ := ih _ _ _ hra
        refine ⟨hl, ?_⟩
        cases hm with
        | inl hm =>
          exact Or.inr ⟨p, List.mem_cons_self p ps, rows, hr, hm⟩
        | inr hm =>
          obtain ⟨q, hq, rows2, hq2, hq3⟩ := hm
          exact Or.inr ⟨q, List.mem_cons_of_mem p hq, rows2, hq2, hq3⟩

theorem readAll_ok_rows (fs : FS) :
    ∀ (pairs : List (String × Option String)) (st st1 : Reader) (dfs : List (List Rec)),
    readAll fs st pairs = (st1, .ok dfs) →
    dfs.length = pairs.length ∧
    ∀ d ∈ dfs, ∃ p ∈ pairs, ∃ rows,
      fs.readFile p.1 = .ok rows ∧ d = locate rows p.1 p.2 := by
  intro pairs
  induction pairs with
  | nil =>
    intro st st1 dfs h
    simp only [readAll] at h
    obtain ⟨-, h2⟩ := Prod.mk.injEq .. ▸ h
    injection h2 with h2
    subst h2
    simp
  | cons p ps ih =>
    intro st st1 dfs h
    rw [readAll] at h
    cases hr : fs.readFile p.1 with
    | error e1 =>
      simp only [read, hr] at h
      simp at h
    | ok rows =>
      simp only [read, hr] at h
      rcases hra : readAll fs { st with measurement_data := some (locate rows p.1 p.2) } ps
        with ⟨st2, res⟩
      rw [hra] at h
      cases res with
      | error e2 => simp at h
      | ok dfs2 =>
        obtain ⟨-, h2⟩ := Prod.mk.injEq .. ▸ h
        injection h2 with h2
        subst h2
        obtain ⟨hlen, hall⟩ := ih _ _ _ hra
        refine ⟨by simp [hlen], ?_⟩
        intro d hd
        rcases List.mem_cons.mp hd with hd | hd
        · exact ⟨p, List.mem_cons_self p ps, rows, hr, hd⟩
        · obtain ⟨q, hq, rows2, hq2, hq3⟩ := hall d hd
          exact ⟨q, List.mem_cons_of_mem p hq, rows2, hq2, hq3⟩

theorem readAll_ok_of_reads (fs : FS) :
    ∀ (pairs : List (String × Option String)) (st : Reader),
    (∀ p ∈ pairs, ∃ rows, fs.readFile p.1 = .ok rows) →
    ∃ st1 dfs, readAll fs st pairs = (st1, .ok dfs) ∧ dfs.length = pairs.length := by
  intro pairs
  induction pairs with
  | nil =>
    intro st _
    exact ⟨st, [], rfl, rfl⟩
  | cons p ps ih =>
    intro st hok
    obtain ⟨rows, hr⟩ := hok p (List.mem_cons_self p ps)
    obtain ⟨st2, dfs, hra, hlen⟩ :=
      ih { st with measurement_data := some (locate rows p.1 p.2) }
        (fun q hq => hok q (List.mem_cons_of_mem p hq))
    refine ⟨st2, locate rows p.1 p.2 :: dfs, ?_, by simp [hlen]⟩
    rw [readAll]
    simp only [read, hr]
    rw [hra]

theorem sum_const_of_mem (M : Nat) :
    ∀ (ns : List Nat), (∀ n ∈ ns, n = M) → ns.sum = ns.length * M
  | [], _ => by simp
  | n :: ns, h => by
    have hn := h n (List.mem_cons_self n ns)
    have ih := sum_const_of_mem M ns (fun x hx => h x (List.mem_cons_of_mem n hx))
    subst hn
    simp [ih, Nat.succ_mul, Nat.add_comm]

theorem takeWhile_le_eq_filter (b : Nat) :
    ∀ (l : List Rec), SortedByTs l →
      l.takeWhile (fun r => r.ts ≤ b) = l.filter (fun r => r.ts ≤ b) := by
  intro l
  induction l with
  | nil => intro _; rfl
  | cons r rs ih =>
    intro hs
    rw [SortedByTs, List.pairwise_cons] at hs
    obtain ⟨hall, hrs⟩ := hs
    by_cases hb : r.ts ≤ b
    · simp only [List.takeWhile_cons, List.filter_cons, decide_eq_true hb, if_true]
      rw [ih hrs]
    · have hb' : decide (r.ts ≤ b) = false := decide_eq_false hb
      simp only [List.takeWhile_cons, List.filter_cons, hb', if_false, Bool.false_eq_true]
      rw [eq_comm, List.filter_eq_nil_iff]
      intro x hx
      have hrx : r.ts ≤ x.ts := hall x hx
      simp only [decide_eq_true_eq]
      omega

theorem locSlice_eq_filter (a b : Nat) :
    ∀ (l : List Rec), SortedByTs l →
      locSlice a b l = l.filter (fun r => a ≤ r.ts && r.ts ≤ b) := by
  intro l
  induction l with
  | nil => intro _; rfl
  | cons r rs ih =>
    intro hs
    have hs' := hs
    rw [SortedByTs, List.pairwise_cons] at hs'
    obtain ⟨hall, hrs⟩ := hs'
    by_cases ha : r.ts < a
    · have h1 : locSlice a b (r :: rs) = locSlice a b rs := by
        simp [locSlice, List.dropWhile_cons, ha]
      have h2 : (decide (a ≤ r.ts) && decide (r.ts ≤ b)) = false := by
        have : ¬ a ≤ r.ts := by omega
        simp [this]
      rw [h1, ih hrs, List.filter_cons, h2]
      simp
    · have h1 : locSlice a b (r :: rs) = (r :: rs).takeWhile (fun x => x.ts ≤ b) := by
        simp only [locSlice, List.dropWhile_cons, decide_eq_false ha, Bool.false_eq_true,
          if_false]
      rw [h1, takeWhile_le_eq_filter b _ hs]
      apply List.filter_congr
      intro x hx
      have hax : a ≤ x.ts := by
        rcases List.mem_cons.mp hx with hx | hx
        · subst hx; omega
        · have := hall x hx
          simp only [tsLE_def] at this
          omega
      simp [decide_eq_true hax]

/-! ## Concrete filesystems used to run the model -/

/-- Two well-formed files, distinct timestamps. -/
def fsW : FS :=
  { isDir := true, csvStems := ["a", "b"],
    readFile := fun s =>
      if s = "a" then .ok [(3, 1), (1, 2)]
      else if s = "b" then .ok [(2, 5)]
      else .error .fileNotFound }

/-- One file with two rows carrying the same timestamp. -/
def fsC6 : FS :=
  { isDir := true, csvStems := ["a"],
    readFile := fun s =>
      if s = "a" then .ok [(5, 1), (5, 2)] else .error .fileNotFound }

/-- File `a` parses, file `b` fails to parse. -/
def fsC1 : FS :=
  { isDir := true, csvStems := [],
    readFile := fun s =>
      if s = "a" then .ok [(1, 10)] else .error .parseError }

/-- An existing directory holding no csv files. -/
def fsEmpty : FS :=
  { isDir := true, csvStems := [], readFile := fun _ => .error .fileNotFound }

/-- A configured path that is not an existing directory (its stem list is
irrelevant: `glob` never consults it). -/
def fsNoDir : FS :=
  { isDir := false, csvStems := ["ghost"], readFile := fun _ => .error .fileNotFound }

/-- Two files with two rows each; file `a` holds two identical rows. -/
def fs8 : FS :=
  { isDir := true, csvStems := ["a", "b"],
    readFile := fun s =>
      if s = "a" then .ok [(1, 7), (1, 7)]
      else if s = "b" then .ok [(0, 3), (2, 4)]
      else .error .fileNotFound }

/-- Only file `a` parses; `b` and `c` would fail. -/
def fs10 : FS :=
  { isDir := true, csvStems := [],
    readFile := fun s =>
      if s = "a" then .ok [(1, 1)] else .error .parseError }

/-! ## The claims -/

/-- C1, counterexample: `batch_read` is *not* atomic with respect to failure.
On the fresh reader (table `None`), loading `["a", "b"]` where `a` parses and
`b` raises a parse error aborts with the error, but the measurement table has
been overwritten with file `a`'s rows, because `read` assigns
`self.measurement_data` per file. -/
theorem batch_read_not_atomic :
    Reader.init.measurement_data = none ∧
    (batch_read sortIndexImpl fsC1 Reader.init (some ["a", "b"]) none).2
      = .error .parseError ∧
    (batch_read sortIndexImpl fsC1 Reader.init (some ["a", "b"]) none).1.measurement_data
      = some [⟨1, 10, "a"⟩] :=
  ⟨rfl, rfl, rfl⟩

/-- C1, amended: when reading or parsing a source fails, `batch_read`
propagates the error and the location list is left exactly as before the call,
but the measurement table is only as before the call when the *first* source
failed; otherwise it holds the located rows of some successfully read source
(in fact the last one).  The merged table is never installed on failure. -/
theorem batch_read_failure_state (sortFn : List Rec → List Rec) (fs : FS) (st : Reader)
    (fnames locs : Option (List String)) (st' : Reader) (e : Err)
    (h : readAll fs st (resolvePairs (fnames.getD (glob fs)) locs).1 = (st', .error e)) :
    batch_read sortFn fs st fnames locs = (st', .error e) ∧
    st'.locations = st.locations ∧
    (st'.measurement_data = st.measurement_data ∨
      ∃ p ∈ (resolvePairs (fnames.getD (glob fs)) locs).1, ∃ rows,
        fs.readFile p.1 = .ok rows ∧
        st'.measurement_data = some (locate rows p.1 p.2)) := by
  obtain ⟨hl, hm⟩ := readAll_error_state fs _ _ _ _ h
  refine ⟨?_, hl, hm⟩
  simp only [batch_read, batchWithPairs]
  rw [h]

/-- Witness for C1's amended theorem at a concrete failing load. -/
theorem batch_read_failure_state_witness :
    batch_read sortIndexImpl fsC1 Reader.init (some ["a", "b"]) none
      = (Reader.mk (some [⟨1, 10, "a"⟩]) none, .error .parseError) ∧
    (Reader.mk (some [⟨1, 10, "a"⟩]) none).locations = Reader.init.locations ∧
    ((Reader.mk (some [⟨1, 10, "a"⟩]) none).measurement_data
        = Reader.init.measurement_data ∨
      ∃ p ∈ (resolvePairs ((some ["a", "b"]).getD (glob fsC1)) none).1, ∃ rows,
        fsC1.readFile p.1 = .ok rows ∧
        (Reader.mk (some [⟨1, 10, "a"⟩]) none).measurement_data
          = some (locate rows p.1 p.2)) :=
  batch_read_failure_state sortIndexImpl fsC1 Reader.init (some ["a", "b"]) none
    (Reader.mk (some [⟨1, 10, "a"⟩]) none) .parseError rfl

/-- C2: every successful `batch_read`, under any sort satisfying the
`sort_index` contract, produces a table that is globally non-decreasing in
timestamp (across all locations combined), and stores exactly that table. -/
theorem batch_read_sorted (sortFn : List Rec → List Rec) (fs : FS) (st : Reader)
    (fnames locs : Option (List String)) (st' : Reader) (df : List Rec)
    (hs : SortSpec sortFn)
    (h : batch_read sortFn fs st fnames locs = (st', .ok df)) :
    SortedByTs df ∧ st'.measurement_data = some df := by
  unfold batch_read at h
  obtain ⟨st1, dfs, -, -, hdf, hst⟩ := batchWithPairs_ok h
  subst hdf
  exact ⟨(hs _).2, by rw [hst]⟩

/-- Witness for C2 at a concrete two-file load. -/
theorem batch_read_sorted_witness :
    SortedByTs [⟨1, 2, "a"⟩, ⟨2, 5, "b"⟩, ⟨3, 1, "a"⟩] ∧
    (Reader.mk (some [⟨1, 2, "a"⟩, ⟨2, 5, "b"⟩, ⟨3, 1, "a"⟩])
        (some ["a", "b"])).measurement_data
      = some [⟨1, 2, "a"⟩, ⟨2, 5, "b"⟩, ⟨3, 1, "a"⟩] :=
  batch_read_sorted sortIndexImpl fsW Reader.init none none
    (Reader.mk (some [⟨1, 2, "a"⟩, ⟨2, 5, "b"⟩, ⟨3, 1, "a"⟩]) (some ["a", "b"]))
    [⟨1, 2, "a"⟩, ⟨2, 5, "b"⟩, ⟨3, 1, "a"⟩] sortSpec_sortIndexImpl rfl

/-- C6, counterexample: the sort `batch_read` performs is *not* guaranteed
stable.  The code calls `sort_index()` with the default `kind='quicksort'`,
whose contract is only "sorted permutation" (`SortSpec`).  `badSort` satisfies
that contract, yet on a single file whose two rows share timestamp 5 and
arrive in the order `val 1, val 2` (middle conjunct), the resulting table has
them in the order `val 2, val 1` — not their relative input order. -/
theorem batch_read_not_stable :
    SortSpec badSort ∧
    (readAll fsC6 Reader.init [("a", none)]).2 = .ok [[⟨5, 1, "a"⟩, ⟨5, 2, "a"⟩]] ∧
    (batch_read badSort fsC6 Reader.init none none).2
      = .ok [⟨5, 2, "a"⟩, ⟨5, 1, "a"⟩] :=
  ⟨sortSpec_badSort, rfl, rfl⟩

/-- C6, amended: under the `sort_index` contract, the merged table of a
successful `batch_read` is a permutation of the concatenation (in load order)
of the per-file located tables, non-decreasing in timestamp; the relative
order of records with equal timestamps is not specified. -/
theorem batch_read_sorted_perm (sortFn : List Rec → List Rec) (fs : FS) (st : Reader)
    (fnames locs : Option (List String)) (st' st1 : Reader) (df : List Rec)
    (dfs : List (List Rec))
    (hs : SortSpec sortFn)
    (hra : readAll fs st (resolvePairs (fnames.getD (glob fs)) locs).1 = (st1, .ok dfs))
    (h : batch_read sortFn fs st fnames locs = (st', .ok df)) :
    df.Perm dfs.flatten ∧ SortedByTs df := by
  unfold batch_read at h
  obtain ⟨st1', dfs', hra', -, hdf, -⟩ := batchWithPairs_ok h
  rw [hra] at hra'
  obtain ⟨-, h2⟩ := Prod.mk.injEq .. ▸ hra'
  injection h2 with h2
  subst h2
  subst hdf
  exact ⟨(hs _).1, (hs _).2⟩

/-- Witness for C6's amended theorem at a concrete two-file load. -/
theorem batch_read_sorted_perm_witness :
    ([⟨1, 2, "a"⟩, ⟨2, 5, "b"⟩, ⟨3, 1, "a"⟩] : List Rec).Perm
      ([[⟨3, 1, "a"⟩, ⟨1, 2, "a"⟩], [⟨2, 5, "b"⟩]] : List (List Rec)).flatten ∧
    SortedByTs [⟨1, 2, "a"⟩, ⟨2, 5, "b"⟩, ⟨3, 1, "a"⟩] :=
  batch_read_sorted_perm sortIndexImpl fsW Reader.init none none
    (Reader.mk (some [⟨1, 2, "a"⟩, ⟨2, 5, "b"⟩, ⟨3, 1, "a"⟩]) (some ["a", "b"]))
    (Reader.mk (some [⟨2, 5, "b"⟩]) none)
    [⟨1, 2, "a"⟩, ⟨2, 5, "b"⟩, ⟨3, 1, "a"⟩]
    [[⟨3, 1, "a"⟩, ⟨1, 2, "a"⟩], [⟨2, 5, "b"⟩]]
    sortSpec_sortIndexImpl rfl rfl

/-- C3: on a loaded (hence timestamp-sorted) table, `get_measurements` with
both bounds supplied returns exactly the records whose timestamp `ts`
satisfies `start ≤ ts ≤ end`, inclusive at both ends (`.loc` label slicing),
in table order, with the state untouched. -/
theorem get_measurements_range_filter (st : Reader) (l : List Rec) (a b : Nat)
    (hl : st.measurement_data = some l) (hs : SortedByTs l) :
    get_measurements st (some a) (some b) none =
      (st, .ok (some (l.filter (fun r => a ≤ r.ts && r.ts ≤ b)))) := by
  simp only [get_measurements, hl, applyLocFilter]
  rw [locSlice_eq_filter a b l hs]

/-- Witness for C3: on the loaded table with timestamps 1, 2, 3, the query
over `[2, 3]` keeps exactly the records at timestamps 2 and 3 (both boundary
timestamps included). -/
theorem get_measurements_range_filter_witness :
    get_measurements
        (Reader.mk (some [⟨1, 2, "a"⟩, ⟨2, 5, "b"⟩, ⟨3, 1, "a"⟩]) (some ["a", "b"]))
        (some 2) (some 3) none
      = (Reader.mk (some [⟨1, 2, "a"⟩, ⟨2, 5, "b"⟩, ⟨3, 1, "a"⟩]) (some ["a", "b"]),
        .ok (some [⟨2, 5, "b"⟩, ⟨3, 1, "a"⟩])) :=
  get_measurements_range_filter
    (Reader.mk (some [⟨1, 2, "a"⟩, ⟨2, 5, "b"⟩, ⟨3, 1, "a"⟩]) (some ["a", "b"]))
    [⟨1, 2, "a"⟩, ⟨2, 5, "b"⟩, ⟨3, 1, "a"⟩] 2 3 rfl (by decide)

/-- C4, counterexample: loading a directory with zero matching csv files does
*not* yield an empty table: `pd.concat([])` raises `ValueError` and the table
attribute is left `None`.  Moreover `get_measurements` called before any load
with no filter arguments does *not* fail: it silently returns the `None`
table.  (`get_datetime_limits` before a load does fail, with `AttributeError`,
last conjunct.) -/
theorem empty_load_raises_and_unloaded_query_silent :
    (batch_read sortIndexImpl fsEmpty Reader.init none none).2 = .error .concatEmpty ∧
    (batch_read sortIndexImpl fsEmpty Reader.init none none).1.measurement_data = none ∧
    get_measurements Reader.init none none none = (Reader.init, .ok none) ∧
    get_datetime_limits Reader.init = (Reader.init, .error .attrNone) :=
  ⟨rfl, rfl, rfl, rfl⟩

/-- C4, amended: loading a directory with zero matching csv files fails with
the empty-concat `ValueError`, leaving the measurement table attribute
unchanged (not an empty table).  Before any successful load the table is
`None`: `get_datetime_limits` then fails (`AttributeError`), `get_measurements`
fails when both bounds are supplied, but with no filter arguments it returns
the `None` table without raising. -/
theorem empty_dir_unloaded_behavior (sortFn : List Rec → List Rec) (fs : FS)
    (st : Reader) (a b : Nat)
    (hg : glob fs = []) (hm : st.measurement_data = none) :
    (batch_read sortFn fs st none none).2 = .error .concatEmpty ∧
    (batch_read sortFn fs st none none).1.measurement_data = st.measurement_data ∧
    get_datetime_limits st = (st, .error .attrNone) ∧
    (get_measurements st (some a) (some b) none).2 = .error .attrNone ∧
    get_measurements st none none none = (st, .ok none) := by
  refine ⟨?_, ?_, ?_, ?_, ?_⟩ <;>
    simp [batch_read, hg, resolvePairs, batchWithPairs, readAll, concatSort,
      get_datetime_limits, get_measurements, applyLocFilter, hm]

/-- Witness for C4's amended theorem on a concrete empty directory and the
fresh reader. -/
theorem empty_dir_unloaded_behavior_witness :
    (batch_read sortIndexImpl fsEmpty Reader.init none none).2 = .error .concatEmpty ∧
    (batch_read sortIndexImpl fsEmpty Reader.init none none).1.measurement_data
      = Reader.init.measurement_data ∧
    get_datetime_limits Reader.init = (Reader.init, .error .attrNone) ∧
    (get_measurements Reader.init (some 0) (some 1) none).2 = .error .attrNone ∧
    get_measurements Reader.init none none none = (Reader.init, .ok none) :=
  empty_dir_unloaded_behavior sortIndexImpl fsEmpty Reader.init 0 1 rfl rfl

/-- C5, counterexample: when the configured path is not an existing directory,
file discovery does *not* fail: `pathlib`'s `glob` silently yields the empty
list (even though the modelled path has a csv stem behind it), and the
subsequent `batch_read` fails with the empty-concat `ValueError`, not with any
not-found error. -/
theorem missing_dir_silent_empty_glob :
    fsNoDir.isDir = false ∧ fsNoDir.csvStems ≠ [] ∧ glob fsNoDir = [] ∧
    (batch_read sortIndexImpl fsNoDir Reader.init none none).2 = .error .concatEmpty :=
  ⟨rfl, by simp [fsNoDir], rfl, rfl⟩

/-- C5, amended: if the configured directory does not exist (or is not a
directory), discovery silently yields an empty file list; `batch_read` then
records an empty location list and aborts with the empty-concat `ValueError`
(no `FileNotFoundError` is ever raised at discovery time). -/
theorem glob_missing_dir_behavior (sortFn : List Rec → List Rec) (fs : FS)
    (st : Reader) (h : fs.isDir = false) :
    glob fs = [] ∧
    (batch_read sortFn fs st none none).2 = .error .concatEmpty ∧
    (batch_read sortFn fs st none none).1.locations = some [] := by
  have hg : glob fs = [] := by simp [glob, h]
  refine ⟨hg, ?_, ?_⟩ <;>
    simp [batch_read, hg, resolvePairs, batchWithPairs, readAll, concatSort]

/-- Witness for C5's amended theorem at a concrete non-directory path. -/
theorem glob_missing_dir_behavior_witness :
    glob fsNoDir = [] ∧
    (batch_read sortIndexImpl fsNoDir Reader.init none none).2 = .error .concatEmpty ∧
    (batch_read sortIndexImpl fsNoDir Reader.init none none).1.locations = some [] :=
  glob_missing_dir_behavior sortIndexImpl fsNoDir Reader.init rfl

/-- C7: supplying exactly one of the two bounds applies no date filtering at
all: `if start and end:` is false, so the call behaves identically to
supplying neither bound (for any state and any location argument). -/
theorem get_measurements_one_sided_bound (st : Reader) (a b : Nat)
    (locs : Option (List String)) :
    get_measurements st (some a) none locs = get_measurements st none none locs ∧
    get_measurements st none (some b) locs = get_measurements st none none locs :=
  ⟨rfl, rfl⟩

/-- C8: a successful `batch_read` of `N` files of `M` parsed rows each, with an
explicit location list of matching length, yields a table of exactly `N * M`
records (duplicate rows included — nothing is deduplicated), and the recorded
location list is exactly the supplied one (length `N`, supply order). -/
theorem batch_read_count_locations (sortFn : List Rec → List Rec) (fs : FS) (st : Reader)
    (fns locs : List String) (M : Nat) (st' : Reader) (df : List Rec)
    (hs : SortSpec sortFn)
    (hlen : fns.length = locs.length) (hne : locs ≠ [])
    (hrows : ∀ fn ∈ fns, ∃ rows, fs.readFile fn = .ok rows ∧ rows.length = M)
    (h : batch_read sortFn fs st (some fns) (some locs) = (st', .ok df)) :
    df.length = fns.length * M ∧ get_locations st' = some locs := by
  have hre : resolvePairs fns (some locs) = (fns.zip (locs.map some), locs) := by
    rcases locs with _ | ⟨l0, ls⟩
    · exact absurd rfl hne
    · rfl
  simp only [batch_read, Option.getD_some, hre] at h
  obtain ⟨st1, dfs, hra, -, hdf, hst⟩ := batchWithPairs_ok h
  obtain ⟨hdlen, hall⟩ := readAll_ok_rows fs _ _ _ _ hra
  constructor
  · have hperm := (hs dfs.flatten).1
    subst hdf
    rw [hperm.length_eq, List.length_flatten]
    have hM : ∀ n ∈ dfs.map List.length, n = M := by
      intro n hn
      obtain ⟨d, hd, hdn⟩ := List.mem_map.mp hn
      obtain ⟨p, hp, rows, hrd, hdl⟩ := hall d hd
      obtain ⟨rows2, hr2, hr2len⟩ := hrows p.1 (List.of_mem_zip hp).1
      rw [hrd] at hr2
      injection hr2 with hr2
      subst hr2
      rw [← hdn, hdl, locate_length]
      exact hr2len
    rw [sum_const_of_mem M _ hM, List.length_map, hdlen, List.length_zip,
      List.length_map, ← hlen, Nat.min_self]
  · rw [hst]
    rfl

/-- Witness for C8: two files of two rows each (file `a` holding two identical
rows), explicit locations `["x", "y"]`: four records, locations as supplied. -/
theorem batch_read_count_locations_witness :
    ([⟨0, 3, "y"⟩, ⟨1, 7, "x"⟩, ⟨1, 7, "x"⟩, ⟨2, 4, "y"⟩] : List Rec).length
      = (["a", "b"] : List String).length * 2 ∧
    get_locations (Reader.mk (some [⟨0, 3, "y"⟩, ⟨1, 7, "x"⟩, ⟨1, 7, "x"⟩, ⟨2, 4, "y"⟩])
        (some ["x", "y"])) = some ["x", "y"] :=
  batch_read_count_locations sortIndexImpl fs8 Reader.init ["a", "b"] ["x", "y"] 2
    (Reader.mk (some [⟨0, 3, "y"⟩, ⟨1, 7, "x"⟩, ⟨1, 7, "x"⟩, ⟨2, 4, "y"⟩])
      (some ["x", "y"]))
    [⟨0, 3, "y"⟩, ⟨1, 7, "x"⟩, ⟨1, 7, "x"⟩, ⟨2, 4, "y"⟩]
    sortSpec_sortIndexImpl rfl (by simp)
    (by
      intro fn hfn
      rcases List.mem_cons.mp hfn with h | hfn2
      · subst h; exact ⟨[(1, 7), (1, 7)], rfl, rfl⟩
      · rcases List.mem_cons.mp hfn2 with h | h
        · subst h; exact ⟨[(0, 3), (2, 4)], rfl, rfl⟩
        · exact absurd h (List.not_mem_nil fn))
    rfl

/-- C9: the query operations are read-only — neither `get_datetime_limits` nor
`get_measurements` (with any arguments, on any state) changes the stored
measurement table or location list.  (Neither method assigns any attribute.) -/
theorem queries_read_only (st : Reader) (a b : Option Nat)
    (locs : Option (List String)) :
    (get_datetime_limits st).1 = st ∧ (get_measurements st a b locs).1 = st := by
  constructor
  · unfold get_datetime_limits
    cases h : st.measurement_data with
    | none => rfl
    | some l => cases l <;> rfl
  · unfold get_measurements
    split
    · split
      · rfl
      · split <;> rfl
    · split <;> rfl

/-- C10, counterexample: with a file list and explicit location list of
different lengths (here `[]` and `["x"]`), `batch_read` does *not* stay
error-free: the zip of the two lists is empty, so nothing is read and
`pd.concat([])` raises `ValueError` (after `self.locations` has already been
set to the supplied list). -/
theorem batch_read_mismatch_raises :
    (["x"] : List String).length ≠ ([] : List String).length ∧
    (batch_read sortIndexImpl fsEmpty Reader.init (some []) (some ["x"])).2
      = .error .concatEmpty ∧
    (batch_read sortIndexImpl fsEmpty Reader.init (some []) (some ["x"])).1.locations
      = some ["x"] :=
  ⟨by simp, rfl, rfl⟩

/-- C10, amended: with a *nonempty* file list and a *nonempty* explicit
location list of different lengths, `batch_read` raises no error provided each
of the positionally zipped pairs reads successfully (files beyond the shorter
list are never read — the hypothesis only constrains the zipped pairs), and it
records the full supplied location list. -/
theorem batch_read_mismatch_truncates (sortFn : List Rec → List Rec) (fs : FS)
    (st : Reader) (fns locs : List String)
    (hf : fns ≠ []) (hl : locs ≠ [])
    (hok : ∀ p ∈ fns.zip (locs.map some), ∃ rows, fs.readFile p.1 = .ok rows) :
    (batch_read sortFn fs st (some fns) (some locs)).2.isOk = true ∧
    (batch_read sortFn fs st (some fns) (some locs)).1.locations = some locs := by
  obtain ⟨st1, dfs, hra, hdlen⟩ := readAll_ok_of_reads fs _ st hok
  have hre : resolvePairs fns (some locs) = (fns.zip (locs.map some), locs) := by
    rcases locs with _ | ⟨l0, ls⟩
    · exact absurd rfl hl
    · rfl
  have hne : dfs ≠ [] := by
    intro hnil
    subst hnil
    rcases fns with _ | ⟨f0, fs'⟩
    · exact hf rfl
    rcases locs with _ | ⟨l0, ls⟩
    · exact hl rfl
    simp at hdlen
  simp only [batch_read, batchWithPairs, Option.getD_some, hre]
  rw [hra]
  rcases dfs with _ | ⟨d, ds⟩
  · exact absurd rfl hne
  · exact ⟨by simp [concatSort, Except.isOk, Except.toBool], by simp [concatSort]⟩

/-- Witness for C10's amended theorem: three files zipped against one
location; only the first pair is read (the other two files would fail to
parse), the load succeeds and records `["x"]`. -/
theorem batch_read_mismatch_truncates_witness :
    (batch_read sortIndexImpl fs10 Reader.init (some ["a", "b", "c"])
        (some ["x"])).2.isOk = true ∧
    (batch_read sortIndexImpl fs10 Reader.init (some ["a", "b", "c"])
        (some ["x"])).1.locations = some ["x"] :=
  batch_read_mismatch_truncates sortIndexImpl fs10 Reader.init ["a", "b", "c"] ["x"]
    (by simp) (by simp)
    (by
      intro p hp
      have hp' : p = ("a", some "x") := by simpa using hp
      subst hp'
      exact ⟨[(1, 1)], rfl⟩)

end TemperatureLogging
